import Mathlib

/-!
Shallow embedding of the `napi-bind` crate (files `src/js_call.rs` and
`src/lib.rs`) and proofs about its invocation protocol.

The host call mechanism (`ThreadsafeFunction::call_async`) is modelled as an
explicit function from the argument tuple to the host's response; awaiting a
JavaScript promise is modelled by the settled outcome the promise carries.
Rust's `Result<T, napi::Error>` becomes `Except NapiError T`.
-/

namespace NapiBind

/-- The character class `\w` of the regex `(?:\w+::)` stored in
`MODULE_MATCHER_RE` (ASCII word characters). -/
def isWordChar (c : Char) : Bool := c.isAlphanum || c == '_'

/-- Require a (second) literal `:` at the head of the input. -/
def matchColon : List Char → Option (List Char)
  | [] => none
  | c :: r => if c == ':' then some r else none

/-- After the first word character has been consumed, greedily consume the
remaining word characters of `\w+` and then require the literal `::`;
returns the input remaining after the match.  Greedy matching without
backtracking agrees with the regex here because a shorter `\w+` is always
followed by a word character, never by `:`. -/
def matchQualGo : List Char → Option (List Char)
  | [] => none
  | c :: rest =>
    if isWordChar c then matchQualGo rest
    else if c == ':' then matchColon rest
    else none

/-- Match the regex `\w+::` at the head of the input; returns the input
remaining after the match. -/
def matchQual : List Char → Option (List Char)
  | [] => none
  | c :: rest => if isWordChar c then matchQualGo rest else none

/-- Fuelled scan of `Regex::replace_all` for the pattern `\w+::` with empty
replacement: at each position try a match; on success drop the matched text
and continue after it, otherwise keep the character and move one position
right.  One unit of fuel is spent per position, and every step shortens the
input, so `length` fuel suffices. -/
def stripQualGo : Nat → List Char → List Char
  | 0, l => l
  | _ + 1, [] => []
  | fuel + 1, c :: rest =>
    match matchQual (c :: rest) with
    | some r => stripQualGo fuel r
    | none => c :: stripQualGo fuel rest

/-- `MODULE_MATCHER_RE.replace_all(name, "")` on a list of characters. -/
def stripQual (l : List Char) : List Char := stripQualGo l.length l

/-- `prettify_type_name` from `src/js_call.rs`: delete every occurrence of
the regex `(?:\w+::)` from the name. -/
def prettify_type_name (name : String) : String := String.mk (stripQual name.data)

/-- `pretty_type_name::<T>()` from `src/js_call.rs`.  The compile-time
constant `std::any::type_name::<T>()` is passed in as the argument. -/
def pretty_type_name (rawTypeName : String) : String := prettify_type_name rawTypeName

/-- The subset of `napi::Status` values this crate produces. -/
inductive Status where
  | Ok
  | InvalidArg
  | GenericFailure
deriving DecidableEq, Repr

/-- `napi::Error`: a status code plus a reason string. -/
structure NapiError where
  status : Status
  reason : String
deriving DecidableEq, Repr

/-- `napi::Either<A, B>` with the constructor names of the Rust type. -/
inductive Either (α β : Type) where
  | A : α → Either α β
  | B : β → Either α β
deriving DecidableEq, Repr

/-- `napi::threadsafe_function::UnknownReturnValue`: an opaque token for a
JavaScript return value of unrecognized shape. -/
structure UnknownReturnValue where
deriving DecidableEq, Repr

/-- `napi::bindgen_prelude::Promise<Ret>`: a deferred value, modelled by the
outcome it eventually settles with (`promise.await` in the source yields
exactly this `Except`). -/
structure Promise (Ret : Type) where
  settled : Except NapiError Ret

/-- `ThreadsafeFunction` restricted to what this crate uses: the host call
mechanism, as a function from the argument tuple to the host's response.
`call_async` models `self.call_async(args).await`. -/
structure ThreadsafeFunction (Args Ret : Type) where
  call_async : Args → Except NapiError Ret

/-- `JsCallback<Args, Ret>` from `src/js_call.rs` (the `Arc` is ownership
only and has no observable behaviour). -/
abbrev JsCallback (Args Ret : Type) : Type :=
  ThreadsafeFunction Args (Either Ret UnknownReturnValue)

/-- `MaybeAsyncJsCallback<Args, Ret>` from `src/js_call.rs`. -/
abbrev MaybeAsyncJsCallback (Args Ret : Type) : Type :=
  JsCallback Args (Either (Promise Ret) Ret)

/-- `JsCallbackExt::invoke_async` from `src/js_call.rs`.  The `?` on
`call_async` propagates a submission error unchanged; a recognized value is
returned as `Ok`; an unrecognized value becomes an `InvalidArg` error whose
expected-type slot between the backticks is left empty by the source. -/
def invoke_async {Args Ret : Type} (self : JsCallback Args Ret) (args : Args) :
    Except NapiError Ret :=
  match self.call_async args with
  | Except.error e => Except.error e
  | Except.ok (Either.A ret) => Except.ok ret
  | Except.ok (Either.B _unknown) =>
    let js_type := "unknown"
    Except.error
      ⟨Status.InvalidArg, "UNKNOWN_RETURN_VALUE. Cannot convert " ++ js_type ++ " to `` in "⟩

/-- `MaybeAsyncJsCallbackExt::await_call` from `src/js_call.rs`.
`retTypeName` and `selfTypeName` are the compile-time constants
`std::any::type_name` of `Ret` and of `Self`. -/
def await_call {Args Ret : Type} (self : MaybeAsyncJsCallback Args Ret)
    (retTypeName selfTypeName : String) (args : Args) : Except NapiError Ret :=
  match self.call_async args with
  | Except.ok result =>
    match result with
    | Either.A (Either.A promise) => promise.settled
    | Either.A (Either.B ret) => Except.ok ret
    | Either.B _unknown =>
      let js_type := "unknown"
      let expected_rust_type := pretty_type_name retTypeName
      Except.error
        ⟨Status.InvalidArg,
          "UNKNOWN_RETURN_VALUE. Cannot convert " ++ js_type ++ " to `" ++
            expected_rust_type ++ "` in " ++ pretty_type_name selfTypeName ++ "."⟩
  | Except.error e => Except.error e

/-- `BundleEvent` from `src/lib.rs`. -/
inductive BundleEvent where
  | Start
  | BundleStart
  | End
deriving DecidableEq, Repr

/-- `WatcherEvent` from `src/lib.rs`. -/
inductive WatcherEvent where
  | Close
  | Event : BundleEvent → WatcherEvent
  | ReStart
deriving DecidableEq, Repr

/-- `BindingWatcherChangeData` from `src/lib.rs`. -/
structure BindingWatcherChangeData where
  path : String
  kind : String
deriving DecidableEq, Repr

/-- `BindingBundleEndEventData` from `src/lib.rs` (`duration: u32`). -/
structure BindingBundleEndEventData where
  output : String
  duration : Nat
deriving DecidableEq, Repr

/-- `BindingWatcherEvent` from `src/lib.rs`. -/
structure BindingWatcherEvent where
  inner : WatcherEvent

/-- `BindingWatcherEvent::watch_change_data`: its match has a single
wildcard arm running `unreachable!`, modelled as `none` (panic). -/
def BindingWatcherEvent.watch_change_data (self : BindingWatcherEvent) :
    Option BindingWatcherChangeData :=
  match self.inner with
  | _ => none

/-- `BindingWatcherEvent::bundle_end_data`: its match has a single wildcard
arm running `unreachable!`, modelled as `none` (panic). -/
def BindingWatcherEvent.bundle_end_data (self : BindingWatcherEvent) :
    Option BindingBundleEndEventData :=
  match self.inner with
  | _ => none

/-! ### Observers and containment predicates used by the statements -/

/-- `true` exactly on `Err` results. -/
def isErr {α : Type} : Except NapiError α → Bool
  | Except.error _ => true
  | Except.ok _ => false

/-- The status of an `Err` result. -/
def errStatus {α : Type} : Except NapiError α → Option Status
  | Except.error e => some e.status
  | Except.ok _ => none

/-- The characters of the error message of an `Err` result. -/
def errReason {α : Type} : Except NapiError α → List Char
  | Except.error e => e.reason.data
  | Except.ok _ => []

/-- `sub` occurs contiguously inside `l`. -/
def isSubstring (sub l : List Char) : Prop := ∃ s t, s ++ sub ++ t = l

instance (sub l : List Char) : Decidable (isSubstring sub l) :=
  decidable_of_iff ( List.IsInfix sub l) Iff.rfl

theorem isSubstring_middle (a sub b : List Char) : isSubstring sub (a ++ sub ++ b) :=
  ⟨a, b, rfl⟩

theorem isSubstring_append_right {sub l : List Char} (m : List Char)
    (h : isSubstring sub l) : isSubstring sub (l ++ m) := by
  obtain ⟨s, t, rfl⟩ := h
  exact ⟨s, t ++ m, by simp⟩

theorem isSubstring_append_left {sub m : List Char} (l : List Char)
    (h : isSubstring sub m) : isSubstring sub (l ++ m) := by
  obtain ⟨s, t, rfl⟩ := h
  exact ⟨l ++ s, t, by simp⟩

theorem mem_of_isSubstring {sub l : List Char} {x : Char}
    (h : isSubstring sub l) (hx : x ∈ sub) : x ∈ l := by
  obtain ⟨s, t, rfl⟩ := h
  simp [hx]

theorem not_isSubstring {sub l : List Char} {x : Char}
    (hx : x ∈ sub) (hl : x ∉ l) : ¬ isSubstring sub l :=
  fun h => hl (mem_of_isSubstring h hx)

/-! ### Lemmas about the regex scan -/

theorem matchColon_length : ∀ {l r : List Char},
    matchColon l = some r → r.length + 1 ≤ l.length := by
  intro l r h
  cases l with
  | nil => simp [matchColon] at h
  | cons c rest =>
    rw [matchColon] at h
    by_cases hc : (c == ':') = true
    · rw [if_pos hc] at h
      cases h
      simp
    · rw [if_neg hc] at h
      simp at h

theorem matchQualGo_length : ∀ {l r : List Char},
    matchQualGo l = some r → r.length + 2 ≤ l.length := by
  intro l
  induction l with
  | nil => intro r h; simp [matchQualGo] at h
  | cons c rest ih =>
    intro r h
    rw [matchQualGo] at h
    by_cases hw : isWordChar c
    · rw [if_pos hw] at h
      have := ih h
      simp only [List.length_cons]
      omega
    · rw [if_neg hw] at h
      by_cases hc : (c == ':') = true
      · rw [if_pos hc] at h
        have := matchColon_length h
        simp only [List.length_cons]
        omega
      · rw [if_neg hc] at h
        simp at h

theorem matchQual_length : ∀ {l r : List Char},
    matchQual l = some r → r.length + 3 ≤ l.length := by
  intro l r h
  cases l with
  | nil => simp [matchQual] at h
  | cons c rest =>
    rw [matchQual] at h
    by_cases hw : isWordChar c
    · rw [if_pos hw] at h
      have := matchQualGo_length h
      simp only [List.length_cons]
      omega
    · rw [if_neg hw] at h
      simp at h

theorem stripQualGo_nil (f : Nat) : stripQualGo f [] = [] := by
  cases f <;> rfl

theorem stripQualGo_congr : ∀ (f₁ f₂ : Nat) (l : List Char),
    l.length ≤ f₁ → l.length ≤ f₂ → stripQualGo f₁ l = stripQualGo f₂ l := by
  intro f₁
  induction f₁ with
  | zero =>
    intro f₂ l h₁ _
    have : l = [] := List.length_eq_zero.mp (Nat.le_zero.mp h₁)
    subst this
    simp [stripQualGo_nil]
  | succ g ih =>
    intro f₂ l h₁ h₂
    cases l with
    | nil => simp [stripQualGo_nil]
    | cons c rest =>
      cases f₂ with
      | zero => simp at h₂
      | succ g₂ =>
        simp only [List.length_cons] at h₁ h₂
        cases hm : matchQual (c :: rest) with
        | some r =>
          have hr := matchQual_length hm
          simp only [List.length_cons] at hr
          have e₁ : stripQualGo (g + 1) (c :: rest) = stripQualGo g r := by
            rw [stripQualGo, hm]
          have e₂ : stripQualGo (g₂ + 1) (c :: rest) = stripQualGo g₂ r := by
            rw [stripQualGo, hm]
          rw [e₁, e₂]
          exact ih g₂ r (by omega) (by omega)
        | none =>
          have e₁ : stripQualGo (g + 1) (c :: rest) = c :: stripQualGo g rest := by
            rw [stripQualGo, hm]
          have e₂ : stripQualGo (g₂ + 1) (c :: rest) = c :: stripQualGo g₂ rest := by
            rw [stripQualGo, hm]
          rw [e₁, e₂]
          exact congrArg (List.cons c) (ih g₂ rest (by omega) (by omega))

theorem stripQual_cons_match {c : Char} {rest r : List Char}
    (h : matchQual (c :: rest) = some r) : stripQual (c :: rest) = stripQual r := by
  have hr := matchQual_length h
  simp only [List.length_cons] at hr
  unfold stripQual
  show stripQualGo (rest.length + 1) (c :: rest) = stripQualGo r.length r
  rw [stripQualGo, h]
  exact stripQualGo_congr rest.length r.length r (by omega) (by omega)

theorem stripQual_cons_none {c : Char} {rest : List Char}
    (h : matchQual (c :: rest) = none) : stripQual (c :: rest) = c :: stripQual rest := by
  unfold stripQual
  show stripQualGo (rest.length + 1) (c :: rest) = c :: stripQualGo rest.length rest
  rw [stripQualGo, h]

theorem matchQualGo_none_noColon : ∀ {l : List Char},
    (∀ x ∈ l, x ≠ ':') → matchQualGo l = none := by
  intro l
  induction l with
  | nil => intro _; rfl
  | cons c rest ih =>
    intro h
    rw [matchQualGo]
    by_cases hw : isWordChar c
    · rw [if_pos hw]
      exact ih fun x hx => h x (List.mem_cons_of_mem _ hx)
    · rw [if_neg hw]
      have hc : ¬ (c == ':') = true := by
        simp only [beq_iff_eq]
        exact h c (List.mem_cons_self _ _)
      rw [if_neg hc]

theorem matchQual_none_noColon {l : List Char}
    (h : ∀ x ∈ l, x ≠ ':') : matchQual l = none := by
  cases l with
  | nil => rfl
  | cons c rest =>
    rw [matchQual]
    by_cases hw : isWordChar c
    · rw [if_pos hw]
      exact matchQualGo_none_noColon fun x hx => h x (List.mem_cons_of_mem _ hx)
    · rw [if_neg hw]

theorem stripQual_noColon : ∀ {l : List Char},
    (∀ x ∈ l, x ≠ ':') → stripQual l = l := by
  intro l
  induction l with
  | nil => intro _; rfl
  | cons c rest ih =>
    intro h
    rw [stripQual_cons_none (matchQual_none_noColon h)]
    rw [ih fun x hx => h x (List.mem_cons_of_mem _ hx)]

theorem matchQualGo_word_append : ∀ {w : List Char} (t : List Char),
    (∀ c ∈ w, isWordChar c = true) → matchQualGo (w ++ ':' :: ':' :: t) = some t := by
  intro w
  induction w with
  | nil =>
    intro t _
    rw [List.nil_append, matchQualGo]
    rw [if_neg (by decide : ¬ isWordChar ':' = true)]
    rw [if_pos (by decide : ((':' : Char) == ':') = true)]
    rw [matchColon]
    rw [if_pos (by decide : ((':' : Char) == ':') = true)]
  | cons c w' ih =>
    intro t hw
    rw [List.cons_append, matchQualGo]
    rw [if_pos (hw c (List.mem_cons_self _ _))]
    exact ih t fun x hx => hw x (List.mem_cons_of_mem _ hx)

theorem matchQual_word_append {w : List Char} (t : List Char)
    (hne : w ≠ []) (hw : ∀ c ∈ w, isWordChar c = true) :
    matchQual (w ++ ':' :: ':' :: t) = some t := by
  cases w with
  | nil => exact absurd rfl hne
  | cons c w' =>
    rw [List.cons_append, matchQual]
    rw [if_pos (hw c (List.mem_cons_self _ _))]
    exact matchQualGo_word_append t fun x hx => hw x (List.mem_cons_of_mem _ hx)

/-- A fully qualified name: the qualifier segments, then the base name. -/
def joinQual : List (List Char) → List Char → List Char
  | [], base => base
  | w :: qs, base => w ++ ':' :: ':' :: joinQual qs base

theorem stripQual_joinQual : ∀ {qs : List (List Char)} {base : List Char},
    (∀ w ∈ qs, w ≠ [] ∧ ∀ c ∈ w, isWordChar c = true) →
    (∀ c ∈ base, c ≠ ':') →
    stripQual (joinQual qs base) = base := by
  intro qs
  induction qs with
  | nil => intro base _ hbase; exact stripQual_noColon hbase
  | cons w qs' ih =>
    intro base hq hbase
    obtain ⟨hne, hw⟩ := hq w (List.mem_cons_self _ _)
    rw [joinQual]
    obtain ⟨c, w', rfl⟩ : ∃ c w', w = c :: w' := by
      cases w with
      | nil => exact absurd rfl hne
      | cons c w' => exact ⟨c, w', rfl⟩
    rw [List.cons_append]
    rw [stripQual_cons_match (by
      rw [← List.cons_append]
      exact matchQual_word_append _ hne hw)]
    exact ih (fun v hv => hq v (List.mem_cons_of_mem _ hv)) hbase

theorem colon_mem_joinQual {qs : List (List Char)} {base : List Char}
    (hne : qs ≠ []) : ':' ∈ joinQual qs base := by
  cases qs with
  | nil => exact absurd rfl hne
  | cons w qs' => rw [joinQual]; simp

/-- `true` when the regex `\w+::` matches somewhere in the input. -/
def hasQual : List Char → Bool
  | [] => false
  | c :: rest => (matchQual (c :: rest)).isSome || hasQual rest

theorem stripQual_not_hasQual : ∀ {l : List Char},
    hasQual l = false → stripQual l = l := by
  intro l
  induction l with
  | nil => intro _; rfl
  | cons c rest ih =>
    intro h
    rw [hasQual, Bool.or_eq_false_iff] at h
    obtain ⟨h₁, h₂⟩ := h
    cases hm : matchQual (c :: rest) with
    | some r => rw [hm] at h₁; simp at h₁
    | none => rw [stripQual_cons_none hm, ih h₂]

theorem isSubstring_append_self (l sub : List Char) : isSubstring sub (l ++ sub) :=
  ⟨l, [], by simp⟩

/-! ### Claim theorems -/

/-- Claim C10: for every `BindingWatcherEvent`, whatever `WatcherEvent` it
wraps, the accessors `watch_change_data` and `bundle_end_data` panic (all
their match arms are `unreachable!`, modelled as `none`), so neither ever
returns a value. -/
theorem claim_C10 (e : BindingWatcherEvent) :
    e.watch_change_data = none ∧ e.bundle_end_data = none := by
  obtain ⟨inner⟩ := e
  cases inner <;> exact ⟨rfl, rfl⟩

/-- Claim C2: when the host returns an `Unrecognized` value, `invoke_async`
returns an `InvalidArg` error whose message is the literal template
`UNKNOWN_RETURN_VALUE. Cannot convert {reported} to  in ` with the
reported type being the placeholder `"unknown"` (and the expected-type slot
between the backticks left empty by this path). -/
theorem claim_C2 {Args Ret : Type} (cb : JsCallback Args Ret) (args : Args)
    (u : UnknownReturnValue) (h : cb.call_async args = Except.ok (Either.B u)) :
    invoke_async cb args =
      Except.error ⟨Status.InvalidArg,
        "UNKNOWN_RETURN_VALUE. Cannot convert " ++ "unknown" ++ " to `" ++ "" ++ "` in "⟩ := by
  unfold invoke_async
  rw [h]
  rfl

theorem claim_C2_witness :
    invoke_async (⟨fun _ => Except.ok (Either.B ⟨⟩)⟩ : JsCallback Unit Nat) () =
      Except.error ⟨Status.InvalidArg,
        "UNKNOWN_RETURN_VALUE. Cannot convert " ++ "unknown" ++ " to `" ++ "" ++ "` in "⟩ :=
  claim_C2 ⟨fun _ => Except.ok (Either.B ⟨⟩)⟩ () ⟨⟩ rfl

/-- Claim C3: when the host returns a deferred value (a promise),
`await_call` returns exactly the outcome the promise settles with: the
settled value on success, and the settled failure unmodified on failure. -/
theorem claim_C3 {Args Ret : Type} (cb : MaybeAsyncJsCallback Args Ret)
    (rn sn : String) (args : Args) (p : Promise Ret)
    (h : cb.call_async args = Except.ok (Either.A (Either.A p))) :
    await_call cb rn sn args = p.settled ∧
    (∀ v : Ret, p.settled = Except.ok v → await_call cb rn sn args = Except.ok v) ∧
    (∀ e : NapiError, p.settled = Except.error e → await_call cb rn sn args = Except.error e) := by
  have hmain : await_call cb rn sn args = p.settled := by
    unfold await_call
    rw [h]
  exact ⟨hmain, fun v hv => hmain.trans hv, fun e he => hmain.trans he⟩

theorem claim_C3_witness :
    await_call (⟨fun _ => Except.ok (Either.A (Either.A ⟨Except.ok 42⟩))⟩ :
      MaybeAsyncJsCallback Unit Nat) "i32" "Tsfn" () = Except.ok 42 :=
  (claim_C3 ⟨fun _ => Except.ok (Either.A (Either.A ⟨Except.ok 42⟩))⟩
    "i32" "Tsfn" () ⟨Except.ok 42⟩ rfl).2.1 42 rfl

/-- Claim C4: when the host returns a plain (immediate) value of the
expected type, both `invoke_async` and `await_call` return `Ok` with that
value unchanged. -/
theorem claim_C4 {Args Ret : Type} (cb : JsCallback Args Ret)
    (dm : MaybeAsyncJsCallback Args Ret) (rn sn : String)
    (args args₂ : Args) (v w : Ret)
    (h₁ : cb.call_async args = Except.ok (Either.A v))
    (h₂ : dm.call_async args₂ = Except.ok (Either.A (Either.B w))) :
    invoke_async cb args = Except.ok v ∧ await_call dm rn sn args₂ = Except.ok w := by
  constructor
  · unfold invoke_async
    rw [h₁]
  · unfold await_call
    rw [h₂]

theorem claim_C4_witness :
    invoke_async (⟨fun _ => Except.ok (Either.A 42)⟩ : JsCallback Unit Nat) () =
      Except.ok 42 ∧
    await_call (⟨fun _ => Except.ok (Either.A (Either.B 7))⟩ :
      MaybeAsyncJsCallback Unit Nat) "i32" "Tsfn" () = Except.ok 7 :=
  claim_C4 ⟨fun _ => Except.ok (Either.A 42)⟩ ⟨fun _ => Except.ok (Either.A (Either.B 7))⟩
    "i32" "Tsfn" () () 42 7 rfl rfl

/-- Claim C6: when submitting the call itself fails (the host call
mechanism returns an error), both `invoke_async` and `await_call` return
exactly that error, unchanged. -/
theorem claim_C6 {Args Ret : Type} (cb : JsCallback Args Ret)
    (dm : MaybeAsyncJsCallback Args Ret) (rn sn : String)
    (args args₂ : Args) (e f : NapiError)
    (h₁ : cb.call_async args = Except.error e)
    (h₂ : dm.call_async args₂ = Except.error f) :
    invoke_async cb args = Except.error e ∧ await_call dm rn sn args₂ = Except.error f := by
  constructor
  · unfold invoke_async
    rw [h₁]
  · unfold await_call
    rw [h₂]

theorem claim_C6_witness :
    invoke_async (⟨fun _ => Except.error ⟨Status.GenericFailure, "queue closed"⟩⟩ :
      JsCallback Unit Nat) () = Except.error ⟨Status.GenericFailure, "queue closed"⟩ ∧
    await_call (⟨fun _ => Except.error ⟨Status.GenericFailure, "thread gone"⟩⟩ :
      MaybeAsyncJsCallback Unit Nat) "i32" "Tsfn" () =
      Except.error ⟨Status.GenericFailure, "thread gone"⟩ :=
  claim_C6 ⟨fun _ => Except.error ⟨Status.GenericFailure, "queue closed"⟩⟩
    ⟨fun _ => Except.error ⟨Status.GenericFailure, "thread gone"⟩⟩
    "i32" "Tsfn" () () ⟨Status.GenericFailure, "queue closed"⟩
    ⟨Status.GenericFailure, "thread gone"⟩ rfl rfl

theorem await_call_unrecognized {Args Ret : Type} (cb : MaybeAsyncJsCallback Args Ret)
    (rn sn : String) (args : Args) (u : UnknownReturnValue)
    (h : cb.call_async args = Except.ok (Either.B u)) :
    await_call cb rn sn args =
      Except.error ⟨Status.InvalidArg,
        "UNKNOWN_RETURN_VALUE. Cannot convert " ++ "unknown" ++ " to `" ++
          pretty_type_name rn ++ "` in " ++ pretty_type_name sn ++ "."⟩ := by
  unfold await_call
  rw [h]

/-- Claim C5: when the host returns an `Unrecognized` value, `await_call`
returns an `InvalidArg` error whose message contains the literal text
`Cannot convert` and names both the pretty-printed expected native return
type and the pretty-printed owning type of the dispatcher. -/
theorem claim_C5 {Args Ret : Type} (cb : MaybeAsyncJsCallback Args Ret)
    (rn sn : String) (args : Args) (u : UnknownReturnValue)
    (h : cb.call_async args = Except.ok (Either.B u)) :
    isErr (await_call cb rn sn args) = true ∧
    errStatus (await_call cb rn sn args) = some Status.InvalidArg ∧
    isSubstring "Cannot convert".data (errReason (await_call cb rn sn args)) ∧
    isSubstring (pretty_type_name rn).data (errReason (await_call cb rn sn args)) ∧
    isSubstring (pretty_type_name sn).data (errReason (await_call cb rn sn args)) := by
  rw [await_call_unrecognized cb rn sn args u h]
  refine ⟨rfl, rfl, ?_, ?_, ?_⟩
  · simp only [errReason, String.data_append]
    exact isSubstring_append_right _ (isSubstring_append_right _ (isSubstring_append_right _
      (isSubstring_append_right _ (isSubstring_append_right _ (isSubstring_append_right _
        (by decide))))))
  · simp only [errReason, String.data_append]
    exact isSubstring_append_right _ (isSubstring_append_right _ (isSubstring_append_right _
      (isSubstring_append_self _ _)))
  · simp only [errReason, String.data_append]
    exact isSubstring_append_right _ (isSubstring_append_self _ _)

theorem claim_C5_witness :
    isErr (await_call (⟨fun _ => Except.ok (Either.B ⟨⟩)⟩ : MaybeAsyncJsCallback Unit Nat)
      "module::Sub::Type" "alloc::sync::Arc<Tsfn>" ()) = true ∧
    errStatus (await_call (⟨fun _ => Except.ok (Either.B ⟨⟩)⟩ : MaybeAsyncJsCallback Unit Nat)
      "module::Sub::Type" "alloc::sync::Arc<Tsfn>" ()) = some Status.InvalidArg ∧
    isSubstring "Cannot convert".data
      (errReason (await_call (⟨fun _ => Except.ok (Either.B ⟨⟩)⟩ : MaybeAsyncJsCallback Unit Nat)
        "module::Sub::Type" "alloc::sync::Arc<Tsfn>" ())) ∧
    isSubstring (pretty_type_name "module::Sub::Type").data
      (errReason (await_call (⟨fun _ => Except.ok (Either.B ⟨⟩)⟩ : MaybeAsyncJsCallback Unit Nat)
        "module::Sub::Type" "alloc::sync::Arc<Tsfn>" ())) ∧
    isSubstring (pretty_type_name "alloc::sync::Arc<Tsfn>").data
      (errReason (await_call (⟨fun _ => Except.ok (Either.B ⟨⟩)⟩ : MaybeAsyncJsCallback Unit Nat)
        "module::Sub::Type" "alloc::sync::Arc<Tsfn>" ())) :=
  claim_C5 ⟨fun _ => Except.ok (Either.B ⟨⟩)⟩ "module::Sub::Type" "alloc::sync::Arc<Tsfn>"
    () ⟨⟩ rfl

/-- Claim C7: `prettify_type_name` (and so `pretty_type_name`) is a pure
string transformation that removes every maximal `word::` qualifier prefix
sequence from a qualified type name, leaving the base name: for qualifier
segments of word characters and a base containing no colon,
`(w1::)(w2::)...(wn::)base` maps to `base` (so `module::Sub::Type` yields
`Type`). -/
theorem claim_C7 (qs : List (List Char)) (base : List Char)
    (hq : ∀ w ∈ qs, w ≠ [] ∧ ∀ c ∈ w, isWordChar c = true)
    (hbase : ∀ c ∈ base, c ≠ ':') :
    prettify_type_name (String.mk (joinQual qs base)) = String.mk base ∧
    pretty_type_name (String.mk (joinQual qs base)) = String.mk base := by
  have hs : stripQual (joinQual qs base) = base := stripQual_joinQual hq hbase
  constructor
  · show String.mk (stripQual (String.mk (joinQual qs base)).data) = String.mk base
    rw [show (String.mk (joinQual qs base)).data = joinQual qs base from rfl, hs]
  · show String.mk (stripQual (String.mk (joinQual qs base)).data) = String.mk base
    rw [show (String.mk (joinQual qs base)).data = joinQual qs base from rfl, hs]

theorem claim_C7_witness :
    prettify_type_name (String.mk (joinQual ["module".data, "Sub".data] "Type".data)) =
      String.mk "Type".data ∧
    pretty_type_name (String.mk (joinQual ["module".data, "Sub".data] "Type".data)) =
      String.mk "Type".data :=
  claim_C7 ["module".data, "Sub".data] "Type".data (by decide) (by decide)

/-- Claim C9 counterexample: `prettify_type_name` is not idempotent.  On
`a:w:::` the single match `w::` is removed and its removal splices the
remaining characters into the new qualifier `a::`, so a second application
changes the result again. -/
theorem claim_C9_counterexample :
    ¬ (prettify_type_name (prettify_type_name "a:w:::") = prettify_type_name "a:w:::") := by
  decide

/-- Claim C9 (amended): an ASCII string containing no `word::` qualifier
occurrence is returned unchanged by `prettify_type_name`.  (Unrestricted
idempotence fails, because removing a match can splice together a new
qualifier, as `a:w:::` shows.) -/
theorem claim_C9_amended (s : String) (hascii : ∀ c ∈ s.data, c.toNat < 128)
    (h : hasQual s.data = false) : prettify_type_name s = s := by
  show String.mk (stripQual s.data) = s
  rw [stripQual_not_hasQual h]

theorem claim_C9_witness : prettify_type_name "Vec<String>" = "Vec<String>" :=
  claim_C9_amended "Vec<String>" (by decide) (by decide)

/-- Claim C1 counterexample: with the host returning an unrecognized shape,
`invoke_async` returns an error whose message is the fixed string with an
empty expected-type slot, which does not contain the pretty expected type
name `Type` of the raw name `module::Sub::Type`. -/
theorem claim_C1_counterexample :
    errReason (invoke_async (⟨fun _ => Except.ok (Either.B ⟨⟩)⟩ : JsCallback Unit Nat) ()) =
      "UNKNOWN_RETURN_VALUE. Cannot convert unknown to `` in ".data ∧
    ¬ isSubstring (pretty_type_name "module::Sub::Type").data
      (errReason (invoke_async (⟨fun _ => Except.ok (Either.B ⟨⟩)⟩ : JsCallback Unit Nat) ())) := by
  constructor
  · rfl
  · decide

/-- Claim C1 (amended): when the host returns an unrecognized shape,
`await_call` returns an error whose message contains the pretty
(unqualified) expected return type name and never the raw qualified name;
`invoke_async` returns an error whose message is a fixed string containing
no type name at all (its expected-type slot is empty), and in particular
never the raw qualified name. -/
theorem claim_C1_amended {Args Ret : Type}
    (cb : MaybeAsyncJsCallback Args Ret) (dm : JsCallback Args Ret)
    (args args₂ : Args) (u v : UnknownReturnValue)
    (qs : List (List Char)) (base selfName : List Char)
    (hqs : qs ≠ [])
    (hq : ∀ w ∈ qs, w ≠ [] ∧ ∀ c ∈ w, isWordChar c = true)
    (hbase : ∀ c ∈ base, c ≠ ':')
    (hself : ∀ c ∈ stripQual selfName, c ≠ ':')
    (hcall : cb.call_async args = Except.ok (Either.B u))
    (hcall₂ : dm.call_async args₂ = Except.ok (Either.B v)) :
    isErr (await_call cb (String.mk (joinQual qs base)) (String.mk selfName) args) = true ∧
    isSubstring base
      (errReason (await_call cb (String.mk (joinQual qs base)) (String.mk selfName) args)) ∧
    ¬ isSubstring (joinQual qs base)
      (errReason (await_call cb (String.mk (joinQual qs base)) (String.mk selfName) args)) ∧
    isErr (invoke_async dm args₂) = true ∧
    errReason (invoke_async dm args₂) =
      "UNKNOWN_RETURN_VALUE. Cannot convert unknown to `` in ".data ∧
    ¬ isSubstring (joinQual qs base) (errReason (invoke_async dm args₂)) := by
  have hpretty : pretty_type_name (String.mk (joinQual qs base)) = String.mk base := by
    show String.mk (stripQual (String.mk (joinQual qs base)).data) = String.mk base
    rw [show (String.mk (joinQual qs base)).data = joinQual qs base from rfl,
      stripQual_joinQual hq hbase]
  have hprettySelf : pretty_type_name (String.mk selfName) = String.mk (stripQual selfName) := rfl
  have hawait := await_call_unrecognized cb (String.mk (joinQual qs base))
    (String.mk selfName) args u hcall
  rw [hpretty, hprettySelf] at hawait
  have hinv : invoke_async dm args₂ =
      Except.error ⟨Status.InvalidArg,
        "UNKNOWN_RETURN_VALUE. Cannot convert " ++ "unknown" ++ " to `` in "⟩ := by
    unfold invoke_async
    rw [hcall₂]
  refine ⟨?_, ?_, ?_, ?_, ?_, ?_⟩
  · rw [hawait]
    rfl
  · rw [hawait]
    simp only [errReason, String.data_append]
    exact isSubstring_append_right _ (isSubstring_append_right _ (isSubstring_append_right _
      (isSubstring_append_self _ _)))
  · rw [hawait]
    simp only [errReason, String.data_append]
    intro hsub
    have hc := mem_of_isSubstring hsub (colon_mem_joinQual hqs)
    simp only [List.mem_append] at hc
    rcases hc with ((((((hc | hc) | hc) | hc) | hc) | hc) | hc)
    · exact absurd hc (by decide)
    · exact absurd hc (by decide)
    · exact absurd hc (by decide)
    · exact hbase ':' hc rfl
    · exact absurd hc (by decide)
    · exact hself ':' hc rfl
    · exact absurd hc (by decide)
  · rw [hinv]
    rfl
  · rw [hinv]
    rfl
  · rw [hinv]
    intro hsub
    have hc := mem_of_isSubstring hsub (colon_mem_joinQual hqs)
    simp only [errReason] at hc
    exact absurd hc (by decide)

theorem claim_C1_witness :
    isErr (await_call (⟨fun _ => Except.ok (Either.B ⟨⟩)⟩ : MaybeAsyncJsCallback Unit Nat)
      (String.mk (joinQual ["module".data, "Sub".data] "Type".data))
      (String.mk "alloc::sync::Arc<Tsfn>".data) ()) = true ∧
    isSubstring "Type".data
      (errReason (await_call (⟨fun _ => Except.ok (Either.B ⟨⟩)⟩ : MaybeAsyncJsCallback Unit Nat)
        (String.mk (joinQual ["module".data, "Sub".data] "Type".data))
        (String.mk "alloc::sync::Arc<Tsfn>".data) ())) ∧
    ¬ isSubstring (joinQual ["module".data, "Sub".data] "Type".data)
      (errReason (await_call (⟨fun _ => Except.ok (Either.B ⟨⟩)⟩ : MaybeAsyncJsCallback Unit Nat)
        (String.mk (joinQual ["module".data, "Sub".data] "Type".data))
        (String.mk "alloc::sync::Arc<Tsfn>".data) ())) ∧
    isErr (invoke_async (⟨fun _ => Except.ok (Either.B ⟨⟩)⟩ : JsCallback Unit Nat) ()) = true ∧
    errReason (invoke_async (⟨fun _ => Except.ok (Either.B ⟨⟩)⟩ : JsCallback Unit Nat) ()) =
      "UNKNOWN_RETURN_VALUE. Cannot convert unknown to `` in ".data ∧
    ¬ isSubstring (joinQual ["module".data, "Sub".data] "Type".data)
      (errReason (invoke_async (⟨fun _ => Except.ok (Either.B ⟨⟩)⟩ : JsCallback Unit Nat) ())) :=
  claim_C1_amended ⟨fun _ => Except.ok (Either.B ⟨⟩)⟩ ⟨fun _ => Except.ok (Either.B ⟨⟩)⟩
    () () ⟨⟩ ⟨⟩ ["module".data, "Sub".data] "Type".data "alloc::sync::Arc<Tsfn>".data
    (by decide) (by decide) (by decide) (by decide) rfl rfl

end NapiBind
